import Mathlib

/-!
Verification of the localtunnel server tunnel routing engine.

The development shallowly embeds the per-client socket pool of src/proxy.js
and the request dispatch of the HTTP front door (src/unnamed/part_000) as a
small-step state machine. Sockets and handlers are identified by natural
numbers. Handler invocations are logged so that delivery order, delivery
multiplicity and delivery payload (a socket or the null sentinel) can be
stated. The logger.ingo typo in Proxy.prototype._process_waiting is modelled
by a crashed flag: the TypeError is raised after the waiter queue shift and
before next_socket runs, so the step records the popped waiter and sets the
flag without logging any invocation. Traces are examined up to the first
raise, so the flag freezes the machine.
-/

namespace Localtunnel

/-- One logged handler invocation: the handler id and its argument, either
an admitted socket id or the null sentinel used when draining waiters. -/
structure Invoc where
  handler : Nat
  sock : Option Nat
deriving DecidableEq

/-- Pool state of one Proxy instance (src/proxy.js lines 29-30): sockets is
the idle FIFO self.sockets, waiting is the FIFO self.waiting of queued
handlers. inflight records sockets lent by next_socket whose handler promise
has not settled yet (the source keeps no such list; it is bookkeeping needed
to state tracking claims). invocations is the log of handler invocations,
endEmits counts emissions of the end signal, and crashed records that the
logger.ingo TypeError was raised. -/
structure PState where
  sockets : List Nat
  waiting : List Nat
  inflight : List Nat
  invocations : List Invoc
  endEmits : Nat
  crashed : Bool
deriving DecidableEq

/-- Fresh pool: no sockets, no waiters. -/
def PState.init : PState := ⟨[], [], [], [], 0, false⟩

/-- Proxy.prototype._process_waiting (src/proxy.js lines 168-176): shift the
head waiter; if one was dequeued the code calls logger.ingo, which is not a
function (typo for logger.info), so a TypeError is raised before
self.next_socket(wait_cb) is reached. The waiter is lost and nothing is
invoked. -/
def process_waiting (s : PState) : PState :=
  match s.waiting with
  | [] => s
  | _ :: rest => { s with waiting := rest, crashed := true }

/-- Tail of the finally block of Proxy.prototype.next_socket (src/proxy.js
lines 219-225): if no sockets are idle, return; otherwise run
_process_waiting. -/
def service_more (t : PState) : PState :=
  match t.sockets with
  | [] => t
  | _ :: _ => process_waiting t

/-- Proxy.prototype._handle_socket (src/proxy.js lines 113-166): if the idle
list self.sockets already holds max_tcp_sockets entries the new socket is
ended and discarded; otherwise it is pushed onto the idle tail and
_process_waiting runs. -/
def handle_socket (max_tcp_sockets : Nat) (sock : Nat) (s : PState) : PState :=
  if max_tcp_sockets ≤ s.sockets.length then s
  else process_waiting { s with sockets := s.sockets ++ [sock] }

/-- Proxy.prototype.next_socket, synchronous part (src/proxy.js lines
191-207): shift the head idle socket; if none, queue the handler on the
waiting tail; otherwise invoke the handler with the socket (logged) and mark
the socket in flight until its promise settles. -/
def next_socket (handler : Nat) (s : PState) : PState :=
  match s.sockets with
  | [] => { s with waiting := s.waiting ++ [handler] }
  | sock :: rest =>
      { s with sockets := rest,
               inflight := s.inflight ++ [sock],
               invocations := s.invocations ++ [⟨handler, some sock⟩] }

/-- The finally block of Proxy.prototype.next_socket (src/proxy.js lines
212-226), run when a lent socket handler settles: if the socket is not
destroyed it is pushed back onto the idle tail; then, if any socket is idle,
_process_waiting runs. -/
def next_socket_finally (sock : Nat) (destroyed : Bool) (s : PState) : PState :=
  service_more
    (match destroyed with
     | true  => { s with inflight := s.inflight.erase sock }
     | false => { s with inflight := s.inflight.erase sock,
                         sockets := s.sockets ++ [sock] })

/-- The close handler attached to each admitted socket (src/proxy.js lines
129-155): splice the socket out of the idle list if present. The timer
re-arming it triggers lives in the lifecycle layer below. -/
def socket_close (sock : Nat) (s : PState) : PState :=
  { s with sockets := s.sockets.erase sock }

/-- Proxy.prototype._cleanup (src/proxy.js lines 178-189): invoke every
queued waiter with null in FIFO order via forEach, then emit end. The
waiting array is not cleared by the source. -/
def cleanup (s : PState) : PState :=
  { s with invocations := s.invocations ++ s.waiting.map (fun w => Invoc.mk w none),
           endEmits := s.endEmits + 1 }

/-- Lifecycle state of one Proxy: the pool plus the idle-destroy timer
(self.conn_timeout), whether self.server.close() has been called, whether
the server close event has fired, and the number of open accepted
connections (used by the runtime to decide when the close event fires). -/
structure LState where
  pool : PState
  timerArmed : Bool
  closeCalled : Bool
  closeEmitted : Bool
  conns : Nat
deriving DecidableEq

/-- State after Proxy.prototype.start: _maybe_destroy arms the initial
idle-destroy timer (src/proxy.js line 89). -/
def LState.init : LState := ⟨PState.init, true, false, false, 0⟩

/-- External events driving one Proxy: a client tunnel connection is
accepted; a public request asks for a socket (maybe_bounce calls
client.next_socket); a lent socket handler settles with the destroyed state
of its socket; a tunnel socket TCP connection fully closes; the idle-destroy
timer fires; the server close event fires. -/
inductive LEv where
  | accept (sock : Nat)
  | request (handler : Nat)
  | complete (sock : Nat) (destroyed : Bool)
  | connClose (sock : Nat)
  | timerFire
  | closeEvent
deriving DecidableEq

/-- One step of the Proxy lifecycle. accept is only possible while the
listener is open and clears the timer on admission (src/proxy.js line 127).
connClose re-arms the timer when no idle socket remains (lines 150-154).
timerFire (lines 98-109) calls server.close() inside try; if close was
already called the call throws, the error is swallowed and _cleanup runs.
closeEvent models the runtime close event: it fires once, after close()
has been called and every accepted connection has ended, and runs _cleanup
(line 62). Once the logger.ingo TypeError has been raised the machine is
frozen: traces are examined up to the first raise. -/
def lstep (max_tcp_sockets : Nat) (s : LState) (e : LEv) : LState :=
  if s.pool.crashed then s
  else
    match e with
    | LEv.accept sock =>
        if s.closeCalled then s
        else if max_tcp_sockets ≤ s.pool.sockets.length then s
        else { s with pool := handle_socket max_tcp_sockets sock s.pool,
                      timerArmed := false, conns := s.conns + 1 }
    | LEv.request handler => { s with pool := next_socket handler s.pool }
    | LEv.complete sock destroyed =>
        { s with pool := next_socket_finally sock destroyed s.pool }
    | LEv.connClose sock =>
        let p := socket_close sock s.pool
        { s with pool := p, conns := s.conns - 1,
                 timerArmed := if p.sockets.isEmpty then true else s.timerArmed }
    | LEv.timerFire =>
        if s.timerArmed then
          if s.closeCalled then { s with pool := cleanup s.pool, timerArmed := false }
          else { s with closeCalled := true, timerArmed := false }
        else s
    | LEv.closeEvent =>
        if s.closeCalled && (s.conns == 0) && (! s.closeEmitted) then
          { s with pool := cleanup s.pool, closeEmitted := true, timerArmed := false }
        else s

/-- Run a Proxy from an arbitrary state through a list of events. -/
def lrunFrom (max_tcp_sockets : Nat) (s : LState) (evs : List LEv) : LState :=
  evs.foldl (lstep max_tcp_sockets) s

/-- Run a freshly started Proxy through a list of events. -/
def lrun (max_tcp_sockets : Nat) (evs : List LEv) : LState :=
  lrunFrom max_tcp_sockets LState.init evs

/-- Idle plus in-flight sockets: how many sockets the pool tracks. -/
def tracked (p : PState) : Nat := p.sockets.length + p.inflight.length

/-- A tunnel socket as the Node runtime sees it. The tcp server of
src/proxy.js line 37 is created without allowHalfOpen, so when the remote
peer sends FIN the socket emits end, auto-ends its own writable side and is
destroyed by the runtime before promise continuations observe it. -/
structure NSocket where
  ended : Bool
  destroyed : Bool
deriving DecidableEq

/-- Runtime end event on a tunnel socket accepted without allowHalfOpen:
the socket is ended and destroyed. -/
def emitEnd (ns : NSocket) : NSocket := { ns with ended := true, destroyed := true }

/-- Completion of the upgrade branch of maybe_bounce (src/unnamed/part_000
lines 163-183): the handler promise resolves when the tunnel socket emits
end, after which the finally block of next_socket runs with the destroyed
state the runtime left on the socket. -/
def bridge_finish (sid : Nat) (ns : NSocket) (s : PState) : PState :=
  next_socket_finally sid (emitEnd ns).destroyed s

/-- True when the event could put socket sid back into circulation: only an
accept of sid or a completion of sid ever appends sid to the idle list. -/
def ev_reintroduces (sid : Nat) : LEv → Bool
  | LEv.accept sock => sock == sid
  | LEv.complete sock _ => sock == sid
  | _ => false

/-- True when the event is a new next_socket call for handler h. -/
def ev_requests (h : Nat) : LEv → Bool
  | LEv.request h2 => h2 == h
  | _ => false

/-- Number of invocations of handler h that delivered a socket (as opposed
to the null sentinel). -/
def socketDeliveries (h : Nat) (invs : List Invoc) : Nat :=
  invs.countP (fun i => i.handler == h && i.sock.isSome)

/-- Holds of an event list when no timer firing happens in a state where
server.close() was already called, i.e. the race that makes the close()
call inside the timer callback throw never occurs. -/
def noLateTimerFire (max_tcp_sockets : Nat) : LState → List LEv → Bool
  | _, [] => true
  | s, e :: rest =>
      ((e != LEv.timerFire) || (!(s.timerArmed && s.closeCalled)))
        && noLateTimerFire max_tcp_sockets (lstep max_tcp_sockets s e) rest

/-- What the maybe_bounce handler does when invoked with its argument
(src/unnamed/part_000 lines 125-158): if the finished flag is set it
returns at once, leaving the socket untouched; if the argument is the null
sentinel it answers 504 and destroys the peer connection; otherwise it
proceeds to inject the request. -/
inductive HandlerAct where
  | returnUnused
  | respond504
  | inject
deriving DecidableEq

/-- Decision made at the top of the maybe_bounce handler body. -/
def maybe_bounce_on_lend (finished : Bool) (sock : Option Nat) : HandlerAct :=
  if finished then HandlerAct.returnUnused
  else
    match sock with
    | none => HandlerAct.respond504
    | some _ => HandlerAct.inject

/-- An upgrade request as maybe_bounce sees it: method, url, http version
and the raw header array of alternating names and values. -/
structure UpgradeReq where
  method : String
  url : String
  httpVersion : String
  rawHeaders : List String
deriving DecidableEq

/-- Header lines synthesized by the loop of src/unnamed/part_000 lines
165-167: pairs of consecutive raw header entries; a trailing odd entry is
dropped by the loop bound. -/
def upgrade_header_lines : List String → List String
  | k :: v :: rest => (k ++ ": " ++ v) :: upgrade_header_lines rest
  | _ => []

/-- The preamble written to the tunnel socket for an upgrade (lines
164-175): request line, header lines, and two empty entries joined by CRLF
so the text ends with a blank line. -/
def upgrade_preamble (req : UpgradeReq) : String :=
  String.intercalate "\r\n"
    ((req.method ++ " " ++ req.url ++ " HTTP/" ++ req.httpVersion)
      :: (upgrade_header_lines req.rawHeaders ++ ["", ""]))

/-- Everything the upgrade branch writes to the tunnel socket. -/
structure TunnelWrites where
  preamble : String
  relayed : List Nat
deriving DecidableEq

/-- Upgrade branch of maybe_bounce (lines 163-183) as a function of the
request, the parser head bytes passed at line 59 and by the upgrade
listener at line 400, and the peer bytes that arrive after the pipes are
wired: the branch writes the synthesized preamble and then relays the
piped peer bytes; the head parameter is never referenced in the body. -/
def maybe_bounce_upgrade_writes (req : UpgradeReq) (head : List Nat)
    (peer_bytes : List Nat) : TunnelWrites :=
  { preamble := upgrade_preamble req, relayed := peer_bytes }

/-- new_client (src/unnamed/part_000 lines 232-250): when the requested id
is already a key of the clients map a fresh random id is silently
substituted; the assigned id is what ends up in info.id. The random
generator is abstracted as the fresh argument. -/
def new_client_assigned_id (req_id fresh : String) (inUse : List String) : String :=
  if req_id ∈ inUse then fresh else req_id

/-- The JSON body answered by the create routes. -/
structure CreateResp where
  id : String
  url : String
deriving DecidableEq

/-- Success path of app.get for /?new and /:req_id (src/unnamed/part_000
lines 289-302 and 342-352): info.id is the assigned id returned by
new_client, while url is built from the original req_id variable of the
route closure. -/
def create_response (schema req_id host fresh : String) (inUse : List String) :
    CreateResp :=
  { id := new_client_assigned_id req_id fresh inUse,
    url := schema ++ "://" ++ req_id ++ "." ++ host }

/-- Pool state used by the C2 witness: one idle socket, one queued waiter. -/
def c2s : PState := ⟨[300], [9], [], [], 0, false⟩

/-- Pool state used by the C3 witness: socket 5 is in flight. -/
def c3s : PState := ⟨[], [], [5], [], 0, false⟩

/-- Lifecycle state used by the C3 witness, entered right after the bridge
for socket 5 completed. -/
def c3ls : LState := ⟨bridge_finish 5 ⟨false, false⟩ c3s, true, false, false, 1⟩

/-- Pool state used by the C6 witness: two queued waiters. -/
def c6s : PState := ⟨[], [7, 8], [], [], 0, false⟩

/-- Lifecycle state used by the C6 witness, entered right after cleanup. -/
def c6ls : LState := ⟨cleanup c6s, false, true, true, 0⟩

/-- Lifecycle state used by the C7 witness: timer armed while close() has
already been called. -/
def c7s : LState := ⟨⟨[], [3], [], [], 0, false⟩, true, true, false, 1⟩

theorem process_waiting_sockets (s : PState) :
    (process_waiting s).sockets = s.sockets := by
  unfold process_waiting
  split <;> rfl

theorem process_waiting_invocations (s : PState) :
    (process_waiting s).invocations = s.invocations := by
  unfold process_waiting
  split <;> rfl

theorem process_waiting_endEmits (s : PState) :
    (process_waiting s).endEmits = s.endEmits := by
  unfold process_waiting
  split <;> rfl

theorem process_waiting_crashed (s : PState) (h : s.waiting ≠ []) :
    (process_waiting s).crashed = true := by
  unfold process_waiting
  split
  · next heq => exact absurd heq h
  · rfl

theorem service_more_sockets (t : PState) :
    (service_more t).sockets = t.sockets := by
  unfold service_more
  split
  · rfl
  · exact process_waiting_sockets t

theorem service_more_invocations (t : PState) :
    (service_more t).invocations = t.invocations := by
  unfold service_more
  split
  · rfl
  · exact process_waiting_invocations t

theorem service_more_endEmits (t : PState) :
    (service_more t).endEmits = t.endEmits := by
  unfold service_more
  split
  · rfl
  · exact process_waiting_endEmits t

theorem service_more_crashed (t : PState) (h1 : t.sockets ≠ []) (h2 : t.waiting ≠ []) :
    (service_more t).crashed = true := by
  unfold service_more
  split
  · next heq => exact absurd heq h1
  · exact process_waiting_crashed t h2

theorem handle_socket_sockets (maxT sock : Nat) (s : PState) :
    (handle_socket maxT sock s).sockets
      = if maxT ≤ s.sockets.length then s.sockets else s.sockets ++ [sock] := by
  unfold handle_socket
  split
  · rfl
  · rw [process_waiting_sockets]

theorem handle_socket_invocations (maxT sock : Nat) (s : PState) :
    (handle_socket maxT sock s).invocations = s.invocations := by
  unfold handle_socket
  split
  · rfl
  · rw [process_waiting_invocations]

theorem handle_socket_endEmits (maxT sock : Nat) (s : PState) :
    (handle_socket maxT sock s).endEmits = s.endEmits := by
  unfold handle_socket
  split
  · rfl
  · rw [process_waiting_endEmits]

theorem next_socket_sockets (h : Nat) (s : PState) :
    (next_socket h s).sockets = s.sockets.tail := by
  unfold next_socket
  split
  · next heq => rw [heq]; rfl
  · next sock rest heq => rw [heq]; rfl

theorem next_socket_endEmits (h : Nat) (s : PState) :
    (next_socket h s).endEmits = s.endEmits := by
  unfold next_socket
  split <;> rfl

theorem next_socket_finally_sockets (sock : Nat) (d : Bool) (s : PState) :
    (next_socket_finally sock d s).sockets
      = match d with
        | true => s.sockets
        | false => s.sockets ++ [sock] := by
  unfold next_socket_finally
  cases d
  · rw [service_more_sockets]
  · rw [service_more_sockets]

theorem next_socket_finally_invocations (sock : Nat) (d : Bool) (s : PState) :
    (next_socket_finally sock d s).invocations = s.invocations := by
  unfold next_socket_finally
  cases d
  · rw [service_more_invocations]
  · rw [service_more_invocations]

theorem next_socket_finally_endEmits (sock : Nat) (d : Bool) (s : PState) :
    (next_socket_finally sock d s).endEmits = s.endEmits := by
  unfold next_socket_finally
  cases d
  · rw [service_more_endEmits]
  · rw [service_more_endEmits]

/-- Claim C2: whenever the pool dequeues a waiter, the dequeue path in
_process_waiting raises the logger.ingo TypeError after the shift and
before next_socket runs, so the popped waiter is never invoked: the
waiting queue loses its head, the invocation log is unchanged and the
raise is recorded. This holds on the direct call, on the admit path of
_handle_socket when the socket is below the cap, and on the finally path
of next_socket whenever the idle list ends up non-empty. -/
theorem C2_dequeue_raises (s : PState) (hw : s.waiting ≠ []) :
    (process_waiting s).crashed = true
    ∧ (process_waiting s).waiting = s.waiting.tail
    ∧ (process_waiting s).invocations = s.invocations
    ∧ (∀ maxT sock : Nat, s.sockets.length < maxT →
        (handle_socket maxT sock s).crashed = true
        ∧ (handle_socket maxT sock s).invocations = s.invocations)
    ∧ (∀ sock : Nat, (next_socket_finally sock false s).crashed = true
        ∧ (next_socket_finally sock false s).invocations = s.invocations)
    ∧ (∀ sock : Nat, s.sockets ≠ [] →
        (next_socket_finally sock true s).crashed = true) := by
  refine ⟨process_waiting_crashed s hw, ?_, process_waiting_invocations s, ?_, ?_, ?_⟩
  · unfold process_waiting
    split
    · next heq => exact absurd heq hw
    · next a rest heq => rw [heq]; rfl
  · intro maxT sock hlt
    have hcap : ¬ maxT ≤ s.sockets.length := Nat.not_le.mpr hlt
    constructor
    · unfold handle_socket
      rw [if_neg hcap]
      exact process_waiting_crashed _ hw
    · rw [handle_socket_invocations]
  · intro sock
    constructor
    · unfold next_socket_finally
      refine service_more_crashed _ ?_ hw
      simp
    · rw [next_socket_finally_invocations]
  · intro sock hs
    unfold next_socket_finally
    exact service_more_crashed _ hs hw

/-- Claim C2 witness: the dequeue paths raise on a concrete pool with one
idle socket and one queued waiter. -/
theorem C2_dequeue_raises_witness :
    (process_waiting c2s).crashed = true
    ∧ (handle_socket 10 100 c2s).crashed = true
    ∧ (next_socket_finally 100 false c2s).crashed = true
    ∧ (next_socket_finally 100 true c2s).crashed = true :=
  ⟨(C2_dequeue_raises c2s (by decide)).1,
   ((C2_dequeue_raises c2s (by decide)).2.2.2.1 10 100 (by decide)).1,
   ((C2_dequeue_raises c2s (by decide)).2.2.2.2.1 100).1,
   (C2_dequeue_raises c2s (by decide)).2.2.2.2.2 100 (by decide)⟩

/-- Claim C1: FIFO lending fails on the code. With one waiter queued while
the pool was empty, the first admitted socket is not delivered to that
waiter: the admit path pops the waiter, then raises on logger.ingo, so no
invocation is ever logged and the waiter is lost while the socket sits
idle. -/
theorem C1_first_admit_never_wakes_waiter :
    (lrun 10 [LEv.request 1, LEv.accept 100]).pool.crashed = true
    ∧ (lrun 10 [LEv.request 1, LEv.accept 100]).pool.invocations = []
    ∧ (lrun 10 [LEv.request 1, LEv.accept 100]).pool.waiting = []
    ∧ (lrun 10 [LEv.request 1, LEv.accept 100]).pool.sockets = [100] := by
  refine ⟨rfl, rfl, rfl, rfl⟩

/-- Claim C4: the invariant clause that the idle set is empty while the
waiter queue is non-empty fails on the code. One socket is admitted and
lent, two more handlers queue as waiters, and when the lent socket settles
undestroyed the finally path re-pools it and _process_waiting raises after
popping one waiter: the pool rests with one idle socket and one queued
waiter. -/
theorem C4_idle_and_waiters_coexist :
    (lrun 10 [LEv.accept 100, LEv.request 1, LEv.request 2, LEv.request 3,
              LEv.complete 100 false]).pool.sockets = [100]
    ∧ (lrun 10 [LEv.accept 100, LEv.request 1, LEv.request 2, LEv.request 3,
              LEv.complete 100 false]).pool.waiting = [3]
    ∧ (lrun 10 [LEv.accept 100, LEv.request 1, LEv.request 2, LEv.request 3,
              LEv.complete 100 false]).pool.crashed = true := by
  refine ⟨rfl, rfl, rfl⟩

/-- Claim C5 counterexample: with max_sockets 1, one admitted socket is
lent and in flight; a second accept then finds the idle list empty, passes
the cap check of _handle_socket and is admitted, so the pool tracks two
sockets at once without any raise. -/
theorem C5_cap_counterexample :
    tracked (lrun 1 [LEv.accept 100, LEv.request 1, LEv.accept 101]).pool = 2
    ∧ (lrun 1 [LEv.accept 100, LEv.request 1, LEv.accept 101]).pool.crashed = false := by
  refine ⟨rfl, rfl⟩

/-- Claim C5 amended: the accept-time check of _handle_socket compares the
idle list length, not the tracked total, with max_sockets: a fresh socket
is admitted to the idle list exactly when the idle count is below the cap,
and an accept at or above the cap leaves the pool untouched. -/
theorem C5_cap_checks_idle_only (maxT sock : Nat) (s : PState)
    (hnew : sock ∉ s.sockets) :
    (sock ∈ (handle_socket maxT sock s).sockets ↔ s.sockets.length < maxT)
    ∧ (maxT ≤ s.sockets.length → handle_socket maxT sock s = s) := by
  constructor
  · rw [handle_socket_sockets]
    split
    · next hc => exact ⟨fun hmem => (hnew hmem).elim, fun hlt => ((Nat.not_le.mpr hlt) hc).elim⟩
    · next hc =>
        exact iff_of_true (List.mem_append_right _ (List.mem_singleton_self sock))
          (Nat.not_le.mp hc)
  · intro hcap
    unfold handle_socket
    rw [if_pos hcap]

/-- Claim C5 amended witness: with cap 1 on the fresh pool, socket 100 is
admitted since the idle count 0 is below the cap. -/
theorem C5_cap_checks_idle_only_witness :
    (100 ∈ (handle_socket 1 100 PState.init).sockets ↔ PState.init.sockets.length < 1)
    ∧ (1 ≤ PState.init.sockets.length → handle_socket 1 100 PState.init = PState.init) :=
  C5_cap_checks_idle_only 1 100 PState.init (by decide)

/-- Claim C9: peer-disconnect safety never gets to run. The handler body
would return without touching the socket when the finished flag is set,
and the finally path would re-pool an untouched socket; but a waiter whose
peer disconnected before any socket was lent is popped by the admit path
and the logger.ingo TypeError is raised before it is invoked, so the
lend never happens: no invocation is logged and the admitted socket stays
idle. -/
theorem C9_finished_waiter_never_lent :
    maybe_bounce_on_lend true (some 200) = HandlerAct.returnUnused
    ∧ (∀ s : PState, 200 ∈ (next_socket_finally 200 false s).sockets)
    ∧ (lrun 10 [LEv.request 2, LEv.accept 200]).pool.invocations = []
    ∧ (lrun 10 [LEv.request 2, LEv.accept 200]).pool.crashed = true := by
  refine ⟨rfl, ?_, rfl, rfl⟩
  intro s
  rw [next_socket_finally_sockets]
  exact List.mem_append_right _ (List.mem_singleton_self 200)

/-- Claim C8 counterexample: when the requested id wxyz is already in use,
new_client silently assigns the fresh id abcd, yet the route builds the
url from the requested id, so the url does not name the id field of the
same response. -/
theorem C8_url_counterexample :
    (create_response "http" "wxyz" "example.com" "abcd" ["wxyz"]).id = "abcd"
    ∧ (create_response "http" "wxyz" "example.com" "abcd" ["wxyz"]).url
        = "http://wxyz.example.com"
    ∧ (create_response "http" "wxyz" "example.com" "abcd" ["wxyz"]).url
        ≠ "http" ++ "://"
          ++ (create_response "http" "wxyz" "example.com" "abcd" ["wxyz"]).id
          ++ "." ++ "example.com" := by
  refine ⟨by decide, by decide, by decide⟩

/-- Claim C8 amended: the url is always built from the originally requested
id, and it agrees with the id field of the response exactly in the
no-substitution case, i.e. when the requested id is not already in use. -/
theorem C8_url_from_requested_id (schema req_id host fresh : String)
    (inUse : List String) (hfree : req_id ∉ inUse) :
    (create_response schema req_id host fresh inUse).url
      = schema ++ "://" ++ req_id ++ "." ++ host
    ∧ (create_response schema req_id host fresh inUse).id = req_id
    ∧ (create_response schema req_id host fresh inUse).url
      = schema ++ "://" ++ (create_response schema req_id host fresh inUse).id
        ++ "." ++ host := by
  have hid : (create_response schema req_id host fresh inUse).id = req_id := by
    unfold create_response new_client_assigned_id
    exact if_neg hfree
  refine ⟨rfl, hid, ?_⟩
  rw [hid]; rfl

/-- Claim C8 amended witness: creating tunnel wxyz against an empty
registry assigns wxyz itself and the url matches the response id. -/
theorem C8_url_from_requested_id_witness :
    (create_response "http" "wxyz" "example.com" "abcd" []).url
      = "http" ++ "://" ++ "wxyz" ++ "." ++ "example.com"
    ∧ (create_response "http" "wxyz" "example.com" "abcd" []).id = "wxyz"
    ∧ (create_response "http" "wxyz" "example.com" "abcd" []).url
      = "http" ++ "://" ++ (create_response "http" "wxyz" "example.com" "abcd" []).id
        ++ "." ++ "example.com" :=
  C8_url_from_requested_id "http" "wxyz" "example.com" "abcd" [] (by decide)

/-- Claim C10: the head buffer handed to maybe_bounce for an upgrade is
discarded: the bytes written to the tunnel socket do not depend on it, and
what is relayed after the preamble is exactly the peer bytes that arrive
once the pipes are wired. -/
theorem C10_head_discarded (req : UpgradeReq) (head1 head2 peer_bytes : List Nat) :
    maybe_bounce_upgrade_writes req head1 peer_bytes
      = maybe_bounce_upgrade_writes req head2 peer_bytes
    ∧ (maybe_bounce_upgrade_writes req head1 peer_bytes).relayed = peer_bytes
    ∧ (maybe_bounce_upgrade_writes req head1 peer_bytes).preamble
        = upgrade_preamble req :=
  ⟨rfl, rfl, rfl⟩

theorem lstep_keeps_sid_out (maxT : Nat) (ls : LState) (e : LEv) (sid : Nat)
    (h : sid ∉ ls.pool.sockets) (he : ev_reintroduces sid e = false) :
    sid ∉ (lstep maxT ls e).pool.sockets := by
  cases hcr : ls.pool.crashed
  · cases e with
    | accept sock =>
        have hne : sock ≠ sid := by simpa [ev_reintroduces] using he
        simp only [lstep, hcr]
        split
        · exact h
        · split
          · exact h
          · split
            · exact h
            · show sid ∉ (handle_socket maxT sock ls.pool).sockets
              rw [handle_socket_sockets]
              split
              · exact h
              · intro hmem
                rcases List.mem_append.mp hmem with hmem1 | hmem2
                · exact h hmem1
                · exact hne (List.mem_singleton.mp hmem2).symm
    | request h2 =>
        simp only [lstep, hcr]
        intro hmem
        simp only [Bool.false_eq_true, if_false] at hmem
        rw [next_socket_sockets] at hmem
        exact h (List.mem_of_mem_tail hmem)
    | complete sock d =>
        have hne : sock ≠ sid := by simpa [ev_reintroduces] using he
        simp only [lstep, hcr]
        intro hmem
        simp only [Bool.false_eq_true, if_false] at hmem
        rw [next_socket_finally_sockets] at hmem
        cases d
        · rcases List.mem_append.mp hmem with hmem1 | hmem2
          · exact h hmem1
          · exact hne (List.mem_singleton.mp hmem2).symm
        · exact h hmem
    | connClose sock =>
        simp only [lstep, hcr]
        intro hmem
        simp only [Bool.false_eq_true, if_false] at hmem
        exact h (List.mem_of_mem_erase hmem)
    | timerFire =>
        simp only [lstep, hcr, Bool.false_eq_true, if_false]
        split
        · split
          · exact h
          · exact h
        · exact h
    | closeEvent =>
        simp only [lstep, hcr, Bool.false_eq_true, if_false]
        split
        · exact h
        · exact h
  · simp only [lstep, hcr]
    exact h

theorem lrunFrom_keeps_sid_out (maxT sid : Nat) :
    ∀ (evs : List LEv) (ls : LState),
      sid ∉ ls.pool.sockets →
      (∀ e ∈ evs, ev_reintroduces sid e = false) →
      sid ∉ (lrunFrom maxT ls evs).pool.sockets := by
  intro evs
  induction evs with
  | nil => intro ls h _; exact h
  | cons e rest ih =>
      intro ls h hf
      have h1 := lstep_keeps_sid_out maxT ls e sid h (hf e (List.mem_cons_self e rest))
      exact ih (lstep maxT ls e) h1 (fun e2 he2 => hf e2 (List.mem_cons_of_mem e he2))

/-- Claim C3: a tunnel socket consumed by the raw upgrade bridge is never
placed back into the idle set. The bridge completes when the tunnel socket
emits end; the runtime has then destroyed the socket (the listener allows
no half-open sockets), so the finally path of next_socket skips the
re-pool, and no later event puts the socket id back into the idle list as
long as that id is not accepted or completed again. -/
theorem C3_upgrade_not_repooled (sid maxT : Nat) (ns : NSocket) (s : PState)
    (ls : LState) (evs : List LEv)
    (hidle : sid ∉ s.sockets)
    (hls : ls.pool = bridge_finish sid ns s)
    (hfresh : ∀ e ∈ evs, ev_reintroduces sid e = false) :
    sid ∉ (bridge_finish sid ns s).sockets
    ∧ sid ∉ (lrunFrom maxT ls evs).pool.sockets := by
  have h1 : sid ∉ (bridge_finish sid ns s).sockets := by
    unfold bridge_finish
    rw [next_socket_finally_sockets]
    exact hidle
  refine ⟨h1, lrunFrom_keeps_sid_out maxT sid evs ls ?_ hfresh⟩
  rw [hls]
  exact h1

/-- Claim C3 witness: socket 5, consumed by the bridge, is absent from the
idle set at completion and stays absent across later unrelated events. -/
theorem C3_upgrade_not_repooled_witness :
    5 ∉ (bridge_finish 5 ⟨false, false⟩ c3s).sockets
    ∧ 5 ∉ (lrunFrom 10 c3ls [LEv.accept 6, LEv.connClose 5]).pool.sockets :=
  C3_upgrade_not_repooled 5 10 ⟨false, false⟩ c3s c3ls [LEv.accept 6, LEv.connClose 5]
    (by decide) rfl (by decide)

theorem socketDeliveries_append_some (h h2 sock : Nat) (invs : List Invoc)
    (hne : h2 ≠ h) :
    socketDeliveries h (invs ++ [⟨h2, some sock⟩]) = socketDeliveries h invs := by
  simp [socketDeliveries, List.countP_append, List.countP_cons, hne]

theorem socketDeliveries_append_none (h : Nat) (invs : List Invoc) (ws : List Nat) :
    socketDeliveries h (invs ++ ws.map (fun w => Invoc.mk w none)) = socketDeliveries h invs := by
  unfold socketDeliveries
  rw [List.countP_append]
  have hz : List.countP (fun (i : Invoc) => i.handler == h && i.sock.isSome)
      (ws.map (fun w => Invoc.mk w none)) = 0 := by
    induction ws with
    | nil => rfl
    | cons a l ih => simp [List.countP_cons, ih]
  rw [hz, Nat.add_zero]

theorem lstep_invocations (maxT : Nat) (ls : LState) (e : LEv) :
    (lstep maxT ls e).pool.invocations = ls.pool.invocations
    ∨ (∃ h2 sock, e = LEv.request h2
        ∧ (lstep maxT ls e).pool.invocations = ls.pool.invocations ++ [⟨h2, some sock⟩])
    ∨ (lstep maxT ls e).pool.invocations
        = ls.pool.invocations ++ ls.pool.waiting.map (fun w => Invoc.mk w none) := by
  cases hcr : ls.pool.crashed
  · cases e with
    | accept sock =>
        left
        simp only [lstep, hcr, Bool.false_eq_true, if_false]
        split
        · rfl
        · split
          · rfl
          · exact handle_socket_invocations maxT sock ls.pool
    | request h2 =>
        simp only [lstep, hcr, Bool.false_eq_true, if_false]
        unfold next_socket
        cases hs : ls.pool.sockets with
        | nil => left; rfl
        | cons a rest =>
            right; left
            exact ⟨h2, a, rfl, rfl⟩
    | complete sock d =>
        left
        simp only [lstep, hcr, Bool.false_eq_true, if_false]
        exact next_socket_finally_invocations sock d ls.pool
    | connClose sock =>
        left
        simp only [lstep, hcr, Bool.false_eq_true, if_false]
        rfl
    | timerFire =>
        simp only [lstep, hcr, Bool.false_eq_true, if_false]
        split
        · split
          · right; right; rfl
          · left; rfl
        · left; rfl
    | closeEvent =>
        simp only [lstep, hcr, Bool.false_eq_true, if_false]
        split
        · right; right; rfl
        · left; rfl
  · left
    simp only [lstep, hcr, if_true]


theorem lstep_socketDeliveries (maxT : Nat) (ls : LState) (e : LEv) (h : Nat)
    (he : ev_requests h e = false) :
    socketDeliveries h (lstep maxT ls e).pool.invocations
      = socketDeliveries h ls.pool.invocations := by
  rcases lstep_invocations maxT ls e with hinv | ⟨h2, sock, hreq, hinv⟩ | hinv
  · rw [hinv]
  · rw [hinv]
    refine socketDeliveries_append_some h h2 sock _ ?_
    subst hreq
    simpa [ev_requests] using he
  · rw [hinv]
    exact socketDeliveries_append_none h _ _

theorem lrunFrom_socketDeliveries (maxT h : Nat) :
    ∀ (evs : List LEv) (ls : LState),
      (∀ e ∈ evs, ev_requests h e = false) →
      socketDeliveries h (lrunFrom maxT ls evs).pool.invocations
        = socketDeliveries h ls.pool.invocations := by
  intro evs
  induction evs with
  | nil => intro ls _; rfl
  | cons e rest ih =>
      intro ls hf
      have h1 := lstep_socketDeliveries maxT ls e h (hf e (List.mem_cons_self e rest))
      have h2 : socketDeliveries h (lrunFrom maxT (lstep maxT ls e) rest).pool.invocations
          = socketDeliveries h (lstep maxT ls e).pool.invocations :=
        ih (lstep maxT ls e) (fun e2 he2 => hf e2 (List.mem_cons_of_mem e he2))
      exact h2.trans h1

/-- Claim C6 counterexample: a tunnel closed with waiter 7 still queued can
invoke that waiter with null twice. Two long-lived sockets are in flight
and idle is empty, so the idle-destroy timer arms and its first firing
calls server.close(); the close event waits for the open connections. One
socket is destroyed and closes, re-arming the timer; its second firing
finds close() already called, swallows the raised error and runs _cleanup,
which invokes waiter 7 with null but does not clear the waiting array.
When the last socket closes, the close event runs _cleanup again and
waiter 7 receives a second null invocation. No dequeue raise occurs on
this trace. -/
theorem C6_double_null_counterexample :
    (lrun 10 [LEv.accept 1, LEv.request 10, LEv.accept 2, LEv.request 11,
              LEv.accept 3, LEv.connClose 3, LEv.request 7, LEv.timerFire,
              LEv.complete 1 true, LEv.connClose 1, LEv.timerFire,
              LEv.complete 2 true, LEv.connClose 2, LEv.closeEvent]).pool.invocations
      = [⟨10, some 1⟩, ⟨11, some 2⟩, ⟨7, none⟩, ⟨7, none⟩]
    ∧ (lrun 10 [LEv.accept 1, LEv.request 10, LEv.accept 2, LEv.request 11,
              LEv.accept 3, LEv.connClose 3, LEv.request 7, LEv.timerFire,
              LEv.complete 1 true, LEv.connClose 1, LEv.timerFire,
              LEv.complete 2 true, LEv.connClose 2, LEv.closeEvent]).pool.crashed
      = false := by
  refine ⟨rfl, rfl⟩

/-- Claim C6 amended: each single run of _cleanup drains the waiters in
FIFO order, invoking each queued waiter with null exactly once per run;
but the waiting array is not cleared, so a second cleanup run (reachable
in the timer-fires-after-close race) repeats the null invocations. After
a cleanup, a drained waiter never receives a socket delivery along any
continuation whose next_socket calls are for other handlers. -/
theorem C6_drain_per_run (s : PState) (h maxT : Nat) (ls : LState) (evs : List LEv)
    (hmem : h ∈ s.waiting)
    (hfresh : ∀ e ∈ evs, ev_requests h e = false) :
    (cleanup s).invocations = s.invocations ++ s.waiting.map (fun w => Invoc.mk w none)
    ∧ (cleanup s).waiting = s.waiting
    ∧ socketDeliveries h (lrunFrom maxT ls evs).pool.invocations
        = socketDeliveries h ls.pool.invocations :=
  ⟨rfl, rfl, lrunFrom_socketDeliveries maxT h evs ls hfresh⟩

/-- Claim C6 amended witness: cleanup of a pool with waiters 7 and 8 logs
one null invocation each in order, leaves the waiting array in place, and
waiter 7 receives no socket delivery across later unrelated events. -/
theorem C6_drain_per_run_witness :
    (cleanup c6s).invocations = c6s.invocations ++ c6s.waiting.map (fun w => Invoc.mk w none)
    ∧ (cleanup c6s).waiting = c6s.waiting
    ∧ socketDeliveries 7 (lrunFrom 10 c6ls [LEv.accept 4, LEv.request 9]).pool.invocations
        = socketDeliveries 7 c6ls.pool.invocations :=
  C6_drain_per_run c6s 7 10 c6ls [LEv.accept 4, LEv.request 9] (by decide) (by decide)

theorem lstep_endEmits_inv (maxT : Nat) (ls : LState) (e : LEv)
    (hi : ls.pool.endEmits = (if ls.closeEmitted then 1 else 0))
    (he : e = LEv.timerFire → (ls.timerArmed && ls.closeCalled) = false) :
    (lstep maxT ls e).pool.endEmits
      = (if (lstep maxT ls e).closeEmitted then 1 else 0) := by
  cases hcr : ls.pool.crashed
  · cases e with
    | accept sock =>
        simp only [lstep, hcr, Bool.false_eq_true, if_false]
        split
        · exact hi
        · split
          · exact hi
          · show (handle_socket maxT sock ls.pool).endEmits = _
            rw [handle_socket_endEmits]
            exact hi
    | request h2 =>
        simp only [lstep, hcr, Bool.false_eq_true, if_false]
        show (next_socket h2 ls.pool).endEmits = _
        rw [next_socket_endEmits]
        exact hi
    | complete sock d =>
        simp only [lstep, hcr, Bool.false_eq_true, if_false]
        show (next_socket_finally sock d ls.pool).endEmits = _
        rw [next_socket_finally_endEmits]
        exact hi
    | connClose sock =>
        simp only [lstep, hcr, Bool.false_eq_true, if_false]
        exact hi
    | timerFire =>
        have harm := he rfl
        simp only [lstep, hcr, Bool.false_eq_true, if_false]
        cases ha : ls.timerArmed
        · simp only [Bool.false_eq_true, if_false]
          exact hi
        · have hcc : ls.closeCalled = false := by
            cases hc2 : ls.closeCalled
            · rfl
            · rw [ha, hc2] at harm
              exact absurd harm (by decide)
          simp only [ha, hcc, Bool.false_eq_true, if_false, if_true]
          exact hi
    | closeEvent =>
        simp only [lstep, hcr, Bool.false_eq_true, if_false]
        split
        · next hguard =>
            have hce : ls.closeEmitted = false := by
              cases hc2 : ls.closeEmitted
              · rfl
              · rw [hc2] at hguard
                simp at hguard
            show (cleanup ls.pool).endEmits = (if true then 1 else 0)
            unfold cleanup
            rw [hi, hce]
            rfl
        · exact hi
  · simp only [lstep, hcr, if_true]
    exact hi

theorem lrunFrom_endEmits_inv (maxT : Nat) :
    ∀ (evs : List LEv) (ls : LState),
      ls.pool.endEmits = (if ls.closeEmitted then 1 else 0) →
      noLateTimerFire maxT ls evs = true →
      (lrunFrom maxT ls evs).pool.endEmits
        = (if (lrunFrom maxT ls evs).closeEmitted then 1 else 0) := by
  intro evs
  induction evs with
  | nil => intro ls hi _; exact hi
  | cons e rest ih =>
      intro ls hi hn
      rw [noLateTimerFire, Bool.and_eq_true] at hn
      obtain ⟨hc, hrec⟩ := hn
      have hcond : e = LEv.timerFire → (ls.timerArmed && ls.closeCalled) = false := by
        intro heq
        subst heq
        rcases Bool.or_eq_true _ _ |>.mp hc with h1 | h2
        · rw [bne_self_eq_false] at h1
          exact absurd h1 (by decide)
        · rw [Bool.not_eq_true'] at h2
          exact h2
      exact ih (lstep maxT ls e) (lstep_endEmits_inv maxT ls e hi hcond) hrec

/-- Claim C7 counterexample: the end signal can be emitted twice in the
exact race the claim includes. With two long-lived sockets in flight and
idle empty, the timer arms and its first firing calls server.close(); the
close event waits for the open connections. One socket is destroyed and
its connection closes, re-arming the timer; the second firing finds the
listener already closed, so close() raises, the error is swallowed and
_cleanup runs, emitting end once. When the last connection closes, the
close event runs _cleanup again and end is emitted a second time. -/
theorem C7_end_twice_counterexample :
    (lrun 10 [LEv.accept 1, LEv.request 10, LEv.accept 2, LEv.request 11,
              LEv.accept 3, LEv.connClose 3, LEv.timerFire, LEv.complete 1 true,
              LEv.connClose 1, LEv.timerFire, LEv.complete 2 true,
              LEv.connClose 2, LEv.closeEvent]).pool.endEmits = 2
    ∧ (lrun 10 [LEv.accept 1, LEv.request 10, LEv.accept 2, LEv.request 11,
              LEv.accept 3, LEv.connClose 3, LEv.timerFire, LEv.complete 1 true,
              LEv.connClose 1, LEv.timerFire, LEv.complete 2 true,
              LEv.connClose 2, LEv.closeEvent]).pool.crashed = false := by
  refine ⟨rfl, rfl⟩

/-- Claim C7 amended: end is emitted once per _cleanup run. In every
lifetime in which the idle-destroy timer never fires after server.close()
was called, _cleanup runs at most once (from the close event) and end is
emitted at most once. When the timer does fire while the listener is
already closed, the close error is swallowed and _cleanup still runs: the
timer is cleared, the waiters are drained with null and end is emitted
then and there, in addition to the close event emission. -/
theorem C7_end_once_without_late_timer (maxT : Nat) (evs : List LEv)
    (hn : noLateTimerFire maxT LState.init evs = true) :
    (lrun maxT evs).pool.endEmits ≤ 1
    ∧ ∀ s : LState, s.timerArmed = true → s.closeCalled = true →
        s.pool.crashed = false →
        (lstep maxT s LEv.timerFire).pool.endEmits = s.pool.endEmits + 1
        ∧ (lstep maxT s LEv.timerFire).timerArmed = false
        ∧ (lstep maxT s LEv.timerFire).pool.invocations
            = s.pool.invocations ++ s.pool.waiting.map (fun w => Invoc.mk w none) := by
  constructor
  · have hinv := lrunFrom_endEmits_inv maxT evs LState.init rfl hn
    unfold lrun
    rw [hinv]
    split
    · exact Nat.le_refl 1
    · exact Nat.zero_le 1
  · intro s h1 h2 h3
    refine ⟨?_, ?_, ?_⟩ <;>
      simp only [lstep, h1, h2, h3, Bool.false_eq_true, if_false, if_true, cleanup]

/-- Claim C7 amended witness: a quiet lifetime emits end at most once,
and a concrete late timer firing emits end, clears the timer and drains
the waiter with null. -/
theorem C7_end_once_without_late_timer_witness :
    (lrun 10 [LEv.accept 1]).pool.endEmits ≤ 1
    ∧ (lstep 10 c7s LEv.timerFire).pool.endEmits = c7s.pool.endEmits + 1
    ∧ (lstep 10 c7s LEv.timerFire).timerArmed = false
    ∧ (lstep 10 c7s LEv.timerFire).pool.invocations
        = c7s.pool.invocations ++ c7s.pool.waiting.map (fun w => Invoc.mk w none) :=
  ⟨(C7_end_once_without_late_timer 10 [LEv.accept 1] (by decide)).1,
   ((C7_end_once_without_late_timer 10 [LEv.accept 1] (by decide)).2 c7s rfl rfl rfl).1,
   ((C7_end_once_without_late_timer 10 [LEv.accept 1] (by decide)).2 c7s rfl rfl rfl).2.1,
   ((C7_end_once_without_late_timer 10 [LEv.accept 1] (by decide)).2 c7s rfl rfl rfl).2.2⟩

end Localtunnel
